import Mathlib

/-!
Verification of the driver registry and loader core of modelbox
(src/libmodelbox/base/drivers/driver.cc), as a shallow embedding: the
pure logic of each function is transcribed into Lean, with the outcomes
of `dlopen`/`dlsym`/`lstat` and of plugin entrypoints supplied as inputs.
-/

namespace Modelbox

/-- Status codes of `modelbox::Status` restricted to the values the
modelled functions of driver.cc produce. -/
inductive Status where
  | ok
  | invalid
  | notsupport
  | exist
  | badconf
  | fault
  | notfound
  deriving DecidableEq, Repr

/-- The `DriverDesc` value object of driver.cc: identity, description,
file path and the load flags. Field names follow the C++ members. -/
structure DriverDesc where
  driver_class_ : String := ""
  driver_type_ : String := ""
  driver_name_ : String := ""
  driver_version_ : String := ""
  driver_description_ : String := ""
  driver_file_path_ : String := ""
  driver_no_delete_ : Bool := false
  global_ : Bool := false
  deep_bind_ : Bool := false
  deriving DecidableEq, Repr

/-- One `std::getline(iss, temp, d)` loop over the remaining characters of
the stream, with `acc` the (reversed) characters of the segment read so
far. Each call yields the segment before the next delimiter; a delimiter
that ends the stream yields no further segment (the next `getline` hits
end-of-stream and fails), exactly as the loop in
`DriverDesc::CheckVersion` sees it. -/
def getlineChunks (d : Char) : List Char → List Char → List (List Char)
  | [], acc => [acc.reverse]
  | c :: cs, acc =>
    if c = d then
      acc.reverse :: (match cs with
        | [] => []
        | _ :: _ => getlineChunks d cs [])
    else getlineChunks d cs (c :: acc)

/-- The segments `while (std::getline(iss, temp, d))` pushes for a string:
none for an empty stream, otherwise `getlineChunks` from an empty
segment. -/
def getlineSplit (d : Char) (s : String) : List String :=
  match s.data with
  | [] => []
  | c :: cs => (getlineChunks d (c :: cs) []).map fun l => String.mk l

/-- `DriverDesc::CheckVersion` of driver.cc: the string must contain the
split character, getline-splitting on it must yield exactly three
segments, and each segment must pass `std::all_of(..., ::isdigit)`
(vacuously true for an empty segment). -/
def CheckVersion (version : String) : Status :=
  if ('.' : Char) ∉ version.data then Status.badconf
  else if (getlineSplit '.' version).length ≠ 3 then Status.badconf
  else if (getlineSplit '.' version).all (fun p => p.data.all Char.isDigit)
    then Status.ok
  else Status.badconf

/-- `DriverDesc::SetVersion` of driver.cc: the empty string succeeds and
leaves the field untouched; otherwise the field is assigned only when
`CheckVersion` passes, and the failure status is returned with the field
unchanged. -/
def SetVersion (desc : DriverDesc) (version : String) : Status × DriverDesc :=
  if version = "" then (Status.ok, desc)
  else if CheckVersion version = Status.ok then
    (Status.ok, { desc with driver_version_ := version })
  else (Status.badconf, desc)

/-- The identity filter of `Drivers::GetDriver`: a descriptor passes when
its class, type and name equal the requested ones. -/
def idMatch (c t n : String) (d : DriverDesc) : Bool :=
  d.driver_class_ == c && d.driver_type_ == t && d.driver_name_ == n

/-- The loop of `Drivers::GetDriver` with `temp` the `temp_driver`
accumulator: an identity match with the requested version returns at
once; otherwise the accumulator keeps the first identity match whose
version is not exceeded by a later one (`operator<` on std::string). -/
def getDriverLoop (c t n v : String) :
    List DriverDesc → Option DriverDesc → Option DriverDesc
  | [], temp => temp
  | d :: rest, temp =>
    if ¬ idMatch c t n d then getDriverLoop c t n v rest temp
    else if d.driver_version_ == v then some d
    else
      match temp with
      | none => getDriverLoop c t n v rest (some d)
      | some td =>
        if td.driver_version_ < d.driver_version_ then
          getDriverLoop c t n v rest (some d)
        else getDriverLoop c t n v rest temp

/-- `Drivers::GetDriver` of driver.cc over the descriptors of
`drivers_list_`. -/
def GetDriver (l : List DriverDesc) (c t n v : String) : Option DriverDesc :=
  getDriverLoop c t n v l none

/-- The `std::unique` step of `Drivers::RemoveSameElements`: drop every
element equal to its predecessor. -/
def uniqueAdj : List String → List String
  | [] => []
  | [a] => [a]
  | a :: b :: rest =>
    if a = b then uniqueAdj (a :: rest) else a :: uniqueAdj (b :: rest)
termination_by l => l.length

/-- `Drivers::RemoveSameElements` of driver.cc: `std::sort` then
`std::unique`. Sorting by a linear order determines the result uniquely,
so insertion sort stands in for `std::sort`. -/
def RemoveSameElements (l : List String) : List String :=
  uniqueAdj (l.insertionSort (· ≤ ·))

/-- `Drivers::GetDriverClassList`: the class projection of the registry,
deduplicated by `RemoveSameElements`. -/
def GetDriverClassList (l : List DriverDesc) : List String :=
  RemoveSameElements (l.map fun d => d.driver_class_)

/-- `Drivers::GetDriverTypeList`: the type projection of the drivers of
one class, deduplicated by `RemoveSameElements`. -/
def GetDriverTypeList (l : List DriverDesc) (c : String) : List String :=
  RemoveSameElements
    ((l.filter fun d => d.driver_class_ == c).map fun d => d.driver_type_)

/-- `Drivers::GetDriverNameList`: the name projection of the drivers of
one class and type, deduplicated by `RemoveSameElements`. -/
def GetDriverNameList (l : List DriverDesc) (c t : String) : List String :=
  RemoveSameElements
    ((l.filter fun d => d.driver_class_ == c && d.driver_type_ == t).map
      fun d => d.driver_name_)

/-- The five-field comparison of `Drivers::DriversContains`: class, type,
name, description and version. -/
def sameTuple (a b : DriverDesc) : Bool :=
  a.driver_class_ == b.driver_class_ && a.driver_type_ == b.driver_type_ &&
  a.driver_name_ == b.driver_name_ &&
  a.driver_description_ == b.driver_description_ &&
  a.driver_version_ == b.driver_version_

/-- `Drivers::DriversContains` of driver.cc. -/
def DriversContains (l : List DriverDesc) (d : DriverDesc) : Bool :=
  l.any fun e => sameTuple e d

/-- What `Drivers::Add` observes about a file: whether `dlopen` succeeds,
whether the `DriverDescription` symbol resolves, and the descriptor the
plugin's callback fills in. -/
structure FileProbe where
  dlopen_ok : Bool
  has_description : Bool
  desc : DriverDesc
  deriving DecidableEq, Repr

/-- `Drivers::Add` of driver.cc. The secondary `RTLD_NODELETE` dlopen for
`no_delete` descriptors touches no registry state and is omitted; the
file path is stamped into the descriptor only after the duplicate
check, as in the source. -/
def Add (l : List DriverDesc) (file : String) (p : FileProbe) :
    Status × List DriverDesc :=
  if ¬ p.dlopen_ok then (Status.invalid, l)
  else if ¬ p.has_description then (Status.notsupport, l)
  else if DriversContains l p.desc then (Status.exist, l)
  else (Status.ok, l ++ [{ p.desc with driver_file_path_ := file }])

/-- A `DriverHandlerInfo` entry of the process-wide `DriverHandler` map:
the handler reference count moved by `DriverHandler::Add` and
`DriverHandler::Remove`, and the `initialize_count_` moved under the
entry's own lock by `Driver::CreateFactory` / `Driver::CloseFactory`. -/
structure HandlerInfo where
  handler_refcnt : Int
  init_count : Int
  deriving DecidableEq, Repr

/-- The state of one `Driver` together with the `DriverHandler` entry for
its library handle: `factory_count_`, whether `driver_handler_` is
non-null, whether `factory_` is non-null, and the table entry (none when
the handle has no entry in the map). -/
structure DriverState where
  factory_count : Int
  handle_open : Bool
  factory_set : Bool
  table : Option HandlerInfo
  deriving DecidableEq, Repr

/-- `DriverHandler::Add` of driver.cc: an absent handle gets a fresh entry
with handler refcount 1 (its `initialize_count_` starts at 0); a present
one has its handler refcount incremented. -/
def handlerAdd : Option HandlerInfo → HandlerInfo
  | none => { handler_refcnt := 1, init_count := 0 }
  | some info => { info with handler_refcnt := info.handler_refcnt + 1 }

/-- `DriverHandler::Remove` of driver.cc: the entry fetched by `Get` is
dereferenced with no null guard, so a missing entry (outer `none`) is a
null dereference; otherwise the handler refcount is decremented and the
entry erased when it reaches 0. -/
def handlerRemove : Option HandlerInfo → Option (Option HandlerInfo)
  | none => none
  | some info =>
    let cnt := info.handler_refcnt - 1
    if cnt = 0 then some none
    else some (some { info with handler_refcnt := cnt })

/-- Which plugin entrypoints an operation invoked: `DriverInit` and
`DriverFini`. -/
structure Events where
  init_called : Bool := false
  fini_called : Bool := false
  deriving DecidableEq, Repr

/-- Outcome of `Driver::CloseFactory`: a null dereference of the missing
table entry, or the state after the call with the entrypoints it ran. -/
inductive CloseResult where
  | nullDeref
  | done (s : DriverState) (e : Events)
  deriving DecidableEq, Repr

/-- `Driver::CloseFactory` of driver.cc. `no_delete` is the descriptor's
flag and `has_fini` whether `dlsym` finds a `DriverFini` symbol. The
decremented `factory_count_` is kept even on the early returns; when the
handle is open the table entry is fetched and dereferenced (a missing
entry is logged and then dereferenced anyway: `nullDeref`); when
`initialize_count_` reaches 0 the entry is removed after `DriverFini`
unless `no_delete`, which instead restores the count to 1; finally the
factory slot is cleared and the handle `dlclose`d. -/
def CloseFactory (no_delete has_fini : Bool) (s : DriverState) : CloseResult :=
  let fc := s.factory_count - 1
  if fc > 0 then CloseResult.done { s with factory_count := fc } {}
  else if ¬ s.handle_open then
    CloseResult.done { s with factory_count := fc, factory_set := false } {}
  else
    match s.table with
    | none => CloseResult.nullDeref
    | some info =>
      let ic := info.init_count - 1
      if ic = 0 then
        if ¬ no_delete then
          match handlerRemove (some { info with init_count := ic }) with
          | none => CloseResult.nullDeref
          | some table' =>
            CloseResult.done
              { factory_count := fc, handle_open := false,
                factory_set := false, table := table' }
              { fini_called := has_fini }
        else
          CloseResult.done
            { factory_count := fc, handle_open := false,
              factory_set := false,
              table := some { info with init_count := ic + 1 } }
            {}
      else
        CloseResult.done
          { factory_count := fc, handle_open := false, factory_set := false,
            table := some { info with init_count := ic } }
          {}

/-- What `Driver::CreateFactory` observes about the library and plugin:
the `dlopen` outcome, whether `DriverInit` / `CreateDriverFactory`
resolve, whether `DriverInit` returns success, whether the factory the
plugin builds is non-null, plus the descriptor flags the call reads. -/
structure PluginBehavior where
  dlopen_ok : Bool
  has_driver_init : Bool
  init_ok : Bool
  has_create_factory : Bool
  factory_ok : Bool
  no_delete : Bool
  has_fini : Bool
  deriving DecidableEq, Repr

/-- Outcome of `Driver::CreateFactory`: a null dereference inside the
unwinding `CloseFactory`, a failure (null factory returned) or a success
handing out a shared factory. -/
inductive CreateResult where
  | nullDeref
  | failure (s : DriverState) (e : Events)
  | success (s : DriverState) (e : Events)
  deriving DecidableEq, Repr

/-- `Driver::CreateFactory` of driver.cc. Incrementing `factory_count_`
away from 1 shares the already-built factory. On the first activation the
library is opened, the handle registered with `DriverHandler::Add`, and
when `initialize_count_` transitions to 1 the `DriverInit` symbol is
resolved and invoked; each failure decrements `initialize_count_` where
the source does and unwinds through `CloseFactory`. -/
def CreateFactory (b : PluginBehavior) (s : DriverState) : CreateResult :=
  let fc := s.factory_count + 1
  if fc ≠ 1 then CreateResult.success { s with factory_count := fc } {}
  else if ¬ b.dlopen_ok then
    match CloseFactory b.no_delete b.has_fini
        { s with factory_count := fc, handle_open := false } with
    | CloseResult.nullDeref => CreateResult.nullDeref
    | CloseResult.done s' e => CreateResult.failure s' e
  else
    let s1 : DriverState := { s with factory_count := fc, handle_open := true }
    let info := handlerAdd s1.table
    let ic := info.init_count + 1
    if ic = 1 then
      if ¬ b.has_driver_init then
        match CloseFactory b.no_delete b.has_fini
            { s1 with table := some { info with init_count := ic - 1 } } with
        | CloseResult.nullDeref => CreateResult.nullDeref
        | CloseResult.done s' e => CreateResult.failure s' e
      else if ¬ b.init_ok then
        match CloseFactory b.no_delete b.has_fini
            { s1 with table := some { info with init_count := ic - 1 } } with
        | CloseResult.nullDeref => CreateResult.nullDeref
        | CloseResult.done s' e =>
          CreateResult.failure s' { e with init_called := true }
      else
        let s2 : DriverState :=
          { s1 with table := some { info with init_count := ic } }
        if ¬ b.has_create_factory then
          match CloseFactory b.no_delete b.has_fini s2 with
          | CloseResult.nullDeref => CreateResult.nullDeref
          | CloseResult.done s' e =>
            CreateResult.failure s' { e with init_called := true }
        else if ¬ b.factory_ok then
          match CloseFactory b.no_delete b.has_fini s2 with
          | CloseResult.nullDeref => CreateResult.nullDeref
          | CloseResult.done s' e =>
            CreateResult.failure s' { e with init_called := true }
        else
          CreateResult.success { s2 with factory_set := true }
            { init_called := true }
    else
      let s2 : DriverState :=
        { s1 with table := some { info with init_count := ic } }
      if ¬ b.has_create_factory then
        match CloseFactory b.no_delete b.has_fini s2 with
        | CloseResult.nullDeref => CreateResult.nullDeref
        | CloseResult.done s' e => CreateResult.failure s' e
      else if ¬ b.factory_ok then
        match CloseFactory b.no_delete b.has_fini s2 with
        | CloseResult.nullDeref => CreateResult.nullDeref
        | CloseResult.done s' e => CreateResult.failure s' e
      else
        CreateResult.success { s2 with factory_set := true } {}

/-- The `UNLOADED` state: `factory_count_` 0, no handle, no factory, no
table entry for the handle. -/
def unloaded : DriverState :=
  { factory_count := 0, handle_open := false, factory_set := false,
    table := none }

/-- `Driver::~Driver` of driver.cc: `Abort` is called exactly when
`factory_count_` is not zero. -/
def driverDestructorAborts (factory_count : Int) : Bool :=
  factory_count != 0

/-- One file a directory listing yields, as `CheckPathAndMagicCode` sees
it: its path, whether its `lstat` succeeds, whether it is a symbolic
link, and its mtime (seconds). -/
structure FileEnt where
  path : String
  lstat_ok : Bool
  is_link : Bool
  mtime : Int
  deriving DecidableEq, Repr

/-- One configured driver directory as `CheckPathAndMagicCode` sees it:
its `lstat` may fail, it may be a plain file (whose mtime joins the sum
unchecked), or a directory whose listing may fail and otherwise yields
files. -/
inductive DirEnt where
  | lstatFail
  | file (mtime : Int)
  | dir (list_ok : Bool) (files : List FileEnt)
  deriving DecidableEq, Repr

/-- What `FillCheckInfo` reads from the scan-info JSON: the cached check
code, the cached linker-cache mtime, and the cached file paths (the keys
of `file_map`). -/
structure ScanCache where
  check_code : String
  ld_cache_time : Int
  cached_files : List String
  deriving DecidableEq, Repr

/-- Everything `Drivers::CheckPathAndMagicCode` consults: whether the
scan-info file and the linker cache exist, the linker cache's mtime, the
cached data, and the configured directories. -/
structure CheckEnv where
  scan_info_exists : Bool
  ld_cache_exists : Bool
  ld_cache_mtime : Int
  cache : ScanCache
  dirs : List DirEnt
  deriving DecidableEq, Repr

/-- The per-file loop of `CheckPathAndMagicCode` over one directory's
listing: files whose `lstat` fails and symbolic links are skipped; a
file missing from the cached `file_map` invalidates the cache (`none`);
otherwise its mtime joins the running `check_sum`. -/
def scanDirFiles (cached : List String) : List FileEnt → Int → Option Int
  | [], sum => some sum
  | f :: fs, sum =>
    if ¬ f.lstat_ok then scanDirFiles cached fs sum
    else if f.is_link then scanDirFiles cached fs sum
    else if f.path ∉ cached then none
    else scanDirFiles cached fs (sum + f.mtime)

/-- The per-directory loop of `CheckPathAndMagicCode`: a failed `lstat`
or a failed listing invalidates the cache; a configured path that is a
plain file only adds its mtime; a directory's files go through
`scanDirFiles`. -/
def scanDirs (cached : List String) : List DirEnt → Int → Option Int
  | [], sum => some sum
  | DirEnt.lstatFail :: _, _ => none
  | DirEnt.file m :: rest, sum => scanDirs cached rest (sum + m)
  | DirEnt.dir list_ok files :: rest, sum =>
    if ¬ list_ok then none
    else
      match scanDirFiles cached files sum with
      | none => none
      | some sum' => scanDirs cached rest sum'

/-- `Drivers::CheckPathAndMagicCode` of driver.cc. `generateKey` stands
for `GenerateKey` of driver_utils (outside the modelled sources): the
key-derivation applied to the summed mtimes. -/
def CheckPathAndMagicCode (generateKey : Int → String) (env : CheckEnv) :
    Bool :=
  if ¬ env.scan_info_exists then false
  else if ¬ env.ld_cache_exists then false
  else if env.cache.ld_cache_time ≠ env.ld_cache_mtime then false
  else
    match scanDirs env.cache.cached_files env.dirs 0 with
    | none => false
    | some check_sum => generateKey check_sum == env.cache.check_code

/-- The regular files the scan of the configured directories yields: the
non-link files with a working `lstat` inside each directory. -/
def scannedFiles (dirs : List DirEnt) : List String :=
  (dirs.map fun e =>
    match e with
    | DirEnt.dir _ files =>
      (files.filter fun f => f.lstat_ok && !f.is_link).map fun f => f.path
    | _ => []).flatten

/-- The mtime sum of one directory's scanned regular files. -/
def sumFiles : List FileEnt → Int
  | [] => 0
  | f :: fs => (if f.lstat_ok && !f.is_link then f.mtime else 0) + sumFiles fs

/-- The mtime sum `CheckPathAndMagicCode` accumulates when nothing
invalidates the walk. -/
def checkSum : List DirEnt → Int
  | [] => 0
  | DirEnt.lstatFail :: rest => checkSum rest
  | DirEnt.file m :: rest => m + checkSum rest
  | DirEnt.dir _ files :: rest => sumFiles files + checkSum rest

/-- Whether every configured directory entry can be walked: no `lstat`
failure and no listing failure. -/
def dirsOk : List DirEnt → Bool
  | [] => true
  | DirEnt.lstatFail :: _ => false
  | DirEnt.file _ :: rest => dirsOk rest
  | DirEnt.dir list_ok _ :: rest => list_ok && dirsOk rest

/-- One element of the `scan_drivers` array of the scan-info file: a
successful entry carrying a whole descriptor, or a failed one carrying
the file path and error message. -/
inductive ScanEntry where
  | succeeded (desc : DriverDesc)
  | failed (file_path err_msg : String)
  deriving DecidableEq, Repr

/-- The `scan_drivers` array `Drivers::WriteScanInfo` writes: every
descriptor of `drivers_list_` with `load_success` true, then every
failure of the scan-result bucket with `load_success` false. -/
def WriteScanInfo (drivers : List DriverDesc)
    (load_failed : List (String × String)) : List ScanEntry :=
  drivers.map ScanEntry.succeeded ++
    load_failed.map fun f => ScanEntry.failed f.1 f.2

/-- The descriptor `Drivers::GatherScanInfo` rebuilds from one cached
entry: every field is pushed through its setter onto a fresh
`DriverDesc`; `SetVersion` validates again and a failure leaves the
fresh descriptor's version empty (its status is ignored by the
caller). -/
def gatherDesc (d : DriverDesc) : DriverDesc :=
  let base : DriverDesc :=
    { driver_class_ := d.driver_class_, driver_type_ := d.driver_type_,
      driver_name_ := d.driver_name_,
      driver_description_ := d.driver_description_,
      driver_version_ := "", driver_file_path_ := d.driver_file_path_,
      driver_no_delete_ := d.driver_no_delete_, global_ := d.global_,
      deep_bind_ := d.deep_bind_ }
  (SetVersion base d.driver_version_).2

/-- `Drivers::GatherScanInfo` of driver.cc run against a registry whose
`drivers_list_` starts as `acc`: entries with `load_success` false are
skipped, and an entry is appended only when `GetDriver` on the list so
far, at the entry's class/type/name/version, returns null. -/
def gatherLoop : List ScanEntry → List DriverDesc → List DriverDesc
  | [], acc => acc
  | ScanEntry.failed _ _ :: rest, acc => gatherLoop rest acc
  | ScanEntry.succeeded d :: rest, acc =>
    match GetDriver acc d.driver_class_ d.driver_type_ d.driver_name_
        d.driver_version_ with
    | some _ => gatherLoop rest acc
    | none => gatherLoop rest (acc ++ [gatherDesc d])

/-- `Drivers::GatherScanInfo` into an empty registry. -/
def GatherScanInfo (entries : List ScanEntry) : List DriverDesc :=
  gatherLoop entries []

/-- The identity-and-description tuple of the round-trip claim. -/
def descTuple (d : DriverDesc) :
    String × String × String × String × String :=
  (d.driver_class_, d.driver_type_, d.driver_name_, d.driver_version_,
    d.driver_description_)

/-- Whether the (class, type, name) triples of a list are pairwise
distinct, phrased through the `idMatch` filter of `GetDriver`. -/
def distinctIdentities : List DriverDesc → Bool
  | [] => true
  | d :: rest =>
    (rest.all fun e =>
      !(idMatch d.driver_class_ d.driver_type_ d.driver_name_ e)) &&
    distinctIdentities rest

/-- Whether every version of a list is empty or passes `CheckVersion`,
so that `SetVersion` reproduces it during `GatherScanInfo`. -/
def versionsOk (l : List DriverDesc) : Bool :=
  l.all fun d =>
    d.driver_version_ == "" || CheckVersion d.driver_version_ == Status.ok

/-! ### Concrete inputs used by the closed theorems -/

/-- A library that opens but exports no `DriverInit` symbol. -/
def bInitMissing : PluginBehavior :=
  { dlopen_ok := true, has_driver_init := false, init_ok := false,
    has_create_factory := false, factory_ok := false, no_delete := false,
    has_fini := false }

/-- A library whose `DriverInit` resolves but returns a failure. -/
def bInitFails : PluginBehavior :=
  { bInitMissing with has_driver_init := true }

/-- A fully functional plugin whose descriptor sets `no_delete`. -/
def bOkPinned : PluginBehavior :=
  { dlopen_ok := true, has_driver_init := true, init_ok := true,
    has_create_factory := true, factory_ok := true, no_delete := true,
    has_fini := true }

/-- The `ACTIVE` state after the first successful `CreateFactory`. -/
def sActive : DriverState :=
  { factory_count := 1, handle_open := true, factory_set := true,
    table := some { handler_refcnt := 1, init_count := 1 } }

/-- The `PINNED_IDLE` state after the last `CloseFactory` of a
`no_delete` driver: counts at 0, handle closed, but the table entry
retained with `initialize_count_` restored to 1. -/
def sPinned : DriverState :=
  { factory_count := 0, handle_open := false, factory_set := false,
    table := some { handler_refcnt := 1, init_count := 1 } }

/-- The state a second `CreateFactory` on a pinned driver reaches: the
entry is re-acquired (handler refcount 2, `initialize_count_` 2). -/
def sActive2 : DriverState :=
  { factory_count := 1, handle_open := true, factory_set := true,
    table := some { handler_refcnt := 2, init_count := 2 } }

/-- The residual state of a failed first initialization: counts unwound
and handle closed, but the table entry resident with
`initialize_count_` at -1. -/
def sLeaked : DriverState :=
  { factory_count := 0, handle_open := false, factory_set := false,
    table := some { handler_refcnt := 1, init_count := -1 } }

/-! ### Claim theorems -/

/-- C8: `Driver::~Driver` is a hard abort exactly when the factory
reference count is nonzero, and never aborts at 0. -/
theorem destructor_abort_iff (r : Int) :
    driverDestructorAborts r = true ↔ r ≠ 0 := by
  simp [driverDestructorAborts]

/-- C9: `DriverHandler::Remove` dereferences the result of `Get` with no
null guard, and the handle-release path of `Driver::CloseFactory` logs a
null lookup but dereferences the entry anyway: for a handle with no
`HandleTable` entry, both reach a null dereference. -/
theorem missing_entry_null_deref :
    handlerRemove none = none ∧
    CloseFactory false false
        { factory_count := 1, handle_open := true, factory_set := true,
          table := none } =
      CloseResult.nullDeref := by
  exact ⟨rfl, rfl⟩

/-- C1, evaluated at the failing input: on the first-initialization path
(factory refcount 0 to 1), when the `DriverInit` symbol is missing or
`DriverInit` returns failure, `CreateFactory` unwinds the factory
count, closes the handle and clears the factory slot — but the entry's
`initialize_count_` is decremented once in the failure branch and again
inside the unwinding `CloseFactory`, so the `HandleTable` entry stays
resident with `initialize_count_` -1 and handler refcount 1 instead of
being restored and removed. -/
theorem createFactory_init_fail_leaks_entry :
    CreateFactory bInitMissing unloaded =
      CreateResult.failure sLeaked
        { init_called := false, fini_called := false } ∧
    CreateFactory bInitFails unloaded =
      CreateResult.failure sLeaked
        { init_called := true, fini_called := false } ∧
    sLeaked.table ≠ none := by
  refine ⟨by decide, by decide, by decide⟩

/-- C3: for a `no_delete` driver, the last `CloseFactory` restores the
entry's `initialize_count_` to 1 and keeps the entry instead of removing
it, never invoking `DriverFini`; a subsequent `CreateFactory` backed by
the same handle finds the pinned entry (count moves 1 to 2) and does not
invoke `DriverInit` again. -/
theorem no_delete_pins_entry :
    CreateFactory bOkPinned unloaded =
      CreateResult.success sActive
        { init_called := true, fini_called := false } ∧
    CloseFactory true true sActive =
      CloseResult.done sPinned
        { init_called := false, fini_called := false } ∧
    sPinned.table = some { handler_refcnt := 1, init_count := 1 } ∧
    CreateFactory bOkPinned sPinned =
      CreateResult.success sActive2
        { init_called := false, fini_called := false } := by
  refine ⟨by decide, by decide, by decide, by decide⟩


lemma getlineChunks_no_delim (d : Char) (cs : List Char) :
    ∀ acc : List Char, (∀ c ∈ cs, c ≠ d) →
      getlineChunks d cs acc = [acc.reverse ++ cs] := by
  induction cs with
  | nil => intro acc _; simp [getlineChunks]
  | cons c cs ih =>
    intro acc h
    have hc : c ≠ d := h c (by simp)
    have hstep : getlineChunks d (c :: cs) acc = getlineChunks d cs (c :: acc) := by
      simp [getlineChunks, hc]
    rw [hstep, ih (c :: acc) (fun x hx => h x (by simp [hx]))]
    simp

lemma getlineSplit_no_delim (v : String) (h : ('.' : Char) ∉ v.data) :
    (getlineSplit '.' v).length ≤ 1 := by
  unfold getlineSplit
  split
  · simp
  · next c cs hv =>
    rw [getlineChunks_no_delim '.' (c :: cs) [] ?_]
    · simp
    · intro x hx he
      exact h (by rw [hv]; exact he ▸ hx)

lemma checkVersion_ok_iff (v : String) :
    CheckVersion v = Status.ok ↔
      ((getlineSplit '.' v).length = 3 ∧
        (getlineSplit '.' v).all (fun p => p.data.all Char.isDigit) = true) := by
  unfold CheckVersion
  by_cases h1 : ('.' : Char) ∈ v.data
  · rw [if_neg (not_not_intro h1)]
    by_cases h2 : (getlineSplit '.' v).length = 3
    · rw [if_neg (not_not_intro h2)]
      by_cases h3 :
          (getlineSplit '.' v).all (fun p => p.data.all Char.isDigit) = true
      · rw [if_pos h3]
        simp [h2, h3]
      · rw [if_neg h3]
        constructor
        · intro hbad; exact absurd hbad (by decide)
        · intro hr; exact absurd hr.2 h3
    · rw [if_pos h2]
      constructor
      · intro hbad; exact absurd hbad (by decide)
      · intro hr; exact absurd hr.1 h2
  · rw [if_pos h1]
    have hle := getlineSplit_no_delim v h1
    constructor
    · intro hbad; exact absurd hbad (by decide)
    · intro hr; exact absurd hr.1 (by omega)

/-- C5 (amended): `SetVersion` succeeds on the empty string leaving the
descriptor unchanged; a non-empty string succeeds exactly when the
getline-style split on a dot — which drops a trailing empty segment —
yields exactly three components each passing the all-digits check
(vacuously true for an empty component); every failure is the
configuration error `badconf` with the field unchanged; "1.2",
"1.2.3.4" and "1.2.a" are rejected. -/
theorem setVersion_characterization :
    (∀ desc : DriverDesc, SetVersion desc "" = (Status.ok, desc)) ∧
    (∀ (desc : DriverDesc) (v : String),
      ((SetVersion desc v).1 = Status.ok ↔
        (v = "" ∨ ((getlineSplit '.' v).length = 3 ∧
          (getlineSplit '.' v).all (fun p => p.data.all Char.isDigit) = true))) ∧
      ((SetVersion desc v).1 = Status.ok ∨
        ((SetVersion desc v).1 = Status.badconf ∧
          (SetVersion desc v).2 = desc))) ∧
    (SetVersion {} "1.2").1 = Status.badconf ∧
    (SetVersion {} "1.2.3.4").1 = Status.badconf ∧
    (SetVersion {} "1.2.a").1 = Status.badconf := by
  refine ⟨fun desc => by simp [SetVersion], fun desc v => ⟨?_, ?_⟩,
    by decide, by decide, by decide⟩
  · by_cases hv : v = ""
    · simp [SetVersion, hv]
    · unfold SetVersion
      rw [if_neg hv]
      by_cases hc : CheckVersion v = Status.ok
      · rw [if_pos hc]
        constructor
        · intro _; exact Or.inr ((checkVersion_ok_iff v).mp hc)
        · intro _; rfl
      · rw [if_neg hc]
        constructor
        · intro hbad; simp at hbad
        · intro hr
          rcases hr with h | hr
          · exact absurd h hv
          · exact absurd ((checkVersion_ok_iff v).mpr hr) hc
  · by_cases hv : v = ""
    · simp [SetVersion, hv]
    · unfold SetVersion
      rw [if_neg hv]
      by_cases hc : CheckVersion v = Status.ok
      · rw [if_pos hc]; exact Or.inl rfl
      · rw [if_neg hc]; exact Or.inr ⟨rfl, rfl⟩

/-- C5 counterexample: the claim requires three non-empty components, but
".2.3" getline-splits into ["", "2", "3"] — its first component empty —
and `SetVersion` accepts it. -/
theorem setVersion_accepts_empty_component :
    SetVersion {} ".2.3" =
      (Status.ok, { driver_version_ := ".2.3" }) ∧
    getlineSplit '.' ".2.3" = ["", "2", "3"] := by
  exact ⟨by decide, by decide⟩


/-- C7: `Drivers::Add` appends at most one driver: a duplicate of the
full (class, type, name, description, version) tuple yields the
already-registered error with `drivers_list_` unchanged, a `dlopen` or
`DriverDescription` failure yields its error with the list unchanged,
and otherwise exactly the probed descriptor, stamped with the file
path, is appended. -/
theorem add_appends_at_most_one :
    ∀ (l : List DriverDesc) (file : String) (p : FileProbe),
      (DriversContains l p.desc = true ↔ ∃ e ∈ l, sameTuple e p.desc = true) ∧
      (p.dlopen_ok = false → Add l file p = (Status.invalid, l)) ∧
      (p.dlopen_ok = true ∧ p.has_description = false →
        Add l file p = (Status.notsupport, l)) ∧
      (p.dlopen_ok = true ∧ p.has_description = true ∧
          DriversContains l p.desc = true →
        Add l file p = (Status.exist, l)) ∧
      (p.dlopen_ok = true ∧ p.has_description = true ∧
          DriversContains l p.desc = false →
        Add l file p =
          (Status.ok, l ++ [{ p.desc with driver_file_path_ := file }])) ∧
      ((Add l file p).2 = l ∨
        (Add l file p).2 = l ++ [{ p.desc with driver_file_path_ := file }]) := by
  intro l file p
  refine ⟨?_, ?_, ?_, ?_, ?_, ?_⟩
  · simp [DriversContains, List.any_eq_true]
  · intro h; simp [Add, h]
  · intro h; simp [Add, h.1, h.2]
  · intro h; simp [Add, h.1, h.2.1, h.2.2]
  · intro h; simp [Add, h.1, h.2.1, h.2.2]
  · unfold Add
    by_cases h1 : p.dlopen_ok
    · by_cases h2 : p.has_description
      · by_cases h3 : DriversContains l p.desc
        · simp [h1, h2, h3]
        · simp [h1, h2, h3]
      · simp [h1, h2]
    · simp [h1]


lemma mem_uniqueAdj : ∀ (l : List String) (x : String),
    x ∈ uniqueAdj l → x ∈ l := by
  intro l
  induction l using uniqueAdj.induct with
  | case1 => intro x hx; simp [uniqueAdj] at hx
  | case2 a => intro x hx; simpa [uniqueAdj] using hx
  | case3 b rest ih =>
    intro x hx
    rw [uniqueAdj, if_pos rfl] at hx
    have := ih x hx
    simp at this ⊢
    tauto
  | case4 a b rest hab ih =>
    intro x hx
    rw [uniqueAdj, if_neg hab] at hx
    rcases List.mem_cons.mp hx with h | h
    · simp [h]
    · have := ih x h
      simp at this ⊢
      tauto

lemma uniqueAdj_sorted_lt : ∀ l : List String,
    l.Sorted (· ≤ ·) → (uniqueAdj l).Sorted (· < ·) := by
  intro l
  induction l using uniqueAdj.induct with
  | case1 => intro _; simp [uniqueAdj]
  | case2 a => intro _; simp [uniqueAdj]
  | case3 b rest ih =>
    intro hs
    rw [uniqueAdj, if_pos rfl]
    apply ih
    rw [List.sorted_cons] at hs
    exact hs.2
  | case4 a b rest hab ih =>
    intro hs
    rw [uniqueAdj, if_neg hab]
    rw [List.sorted_cons] at hs
    have hbrest := hs.2
    have hab' : a < b := lt_of_le_of_ne (hs.1 b (by simp)) hab
    rw [List.sorted_cons]
    refine ⟨?_, ih hbrest⟩
    intro x hx
    have hxmem : x ∈ b :: rest := mem_uniqueAdj _ x hx
    rcases List.mem_cons.mp hxmem with h | h
    · exact h ▸ hab'
    · exact lt_of_lt_of_le hab' ((List.sorted_cons.mp hbrest).1 x h)

lemma removeSameElements_sorted_nodup (v : List String) :
    (RemoveSameElements v).Sorted (· ≤ ·) ∧ (RemoveSameElements v).Nodup := by
  have hs : (v.insertionSort (· ≤ ·)).Sorted (· ≤ ·) :=
    List.sorted_insertionSort _ v
  have hlt := uniqueAdj_sorted_lt _ hs
  constructor
  · exact List.Pairwise.imp (fun h => le_of_lt h) hlt
  · exact List.Pairwise.imp (fun h => ne_of_lt h) hlt

/-- C10: `GetDriverClassList`, `GetDriverTypeList` and `GetDriverNameList`
return their projections sorted in ascending lexicographic order with
duplicates removed, rather than in registration order: for every
registry state each returned list is sorted and duplicate-free. -/
theorem driver_lists_sorted_nodup :
    ∀ (l : List DriverDesc) (c t : String),
      ((GetDriverClassList l).Sorted (· ≤ ·) ∧ (GetDriverClassList l).Nodup) ∧
      ((GetDriverTypeList l c).Sorted (· ≤ ·) ∧
        (GetDriverTypeList l c).Nodup) ∧
      ((GetDriverNameList l c t).Sorted (· ≤ ·) ∧
        (GetDriverNameList l c t).Nodup) := by
  intro l c t
  exact ⟨removeSameElements_sorted_nodup _,
    removeSameElements_sorted_nodup _, removeSameElements_sorted_nodup _⟩


/-- No identity match in `l` carries the requested version (used to state
the fallback branch of `GetDriver`). -/
def MatchNe (c t n v : String) (l : List DriverDesc) : Prop :=
  ∀ e ∈ l, idMatch c t n e = true → e.driver_version_ ≠ v

/-- `d` splits `l` so that every identity match before it has a strictly
smaller version and every one after it a version not exceeding `d`'s:
`d` is the earliest identity match carrying the greatest version
string. -/
def FirstMax (c t n : String) (l : List DriverDesc) (d : DriverDesc) : Prop :=
  ∃ l1 l2, l = l1 ++ d :: l2 ∧
    (∀ e ∈ l1, idMatch c t n e = true →
      e.driver_version_ < d.driver_version_) ∧
    (∀ e ∈ l2, idMatch c t n e = true →
      e.driver_version_ ≤ d.driver_version_)

/-- Correctness of a `GetDriver` result against the scanned list: `none`
means no identity match; `some d` is an identity match from the list
that either carries the requested version, or — when no match does —
is the earliest match with the lexicographically greatest version. -/
def GetSpec (c t n v : String) (l : List DriverDesc) :
    Option DriverDesc → Prop
  | none => ∀ e ∈ l, idMatch c t n e = false
  | some d => d ∈ l ∧ idMatch c t n d = true ∧
      (d.driver_version_ = v ∨ (MatchNe c t n v l ∧ FirstMax c t n l d))

/-- The `temp_driver` invariant of the `GetDriver` loop over the already
scanned prefix. -/
def LoopInv (c t n v : String) (seen : List DriverDesc) :
    Option DriverDesc → Prop
  | none => ∀ e ∈ seen, idMatch c t n e = false
  | some td => td ∈ seen ∧ idMatch c t n td = true ∧
      MatchNe c t n v seen ∧ FirstMax c t n seen td


lemma matchNe_extend {c t n v : String} {seen : List DriverDesc}
    {d : DriverDesc} (h : MatchNe c t n v seen)
    (hd : idMatch c t n d = true → d.driver_version_ ≠ v) :
    MatchNe c t n v (seen ++ [d]) := by
  intro e he hm
  rcases List.mem_append.mp he with h1 | h1
  · exact h e h1 hm
  · simp at h1; subst h1; exact hd hm

lemma firstMax_extend {c t n : String} {seen : List DriverDesc}
    {td d : DriverDesc} (h : FirstMax c t n seen td)
    (hd : idMatch c t n d = true →
      d.driver_version_ ≤ td.driver_version_) :
    FirstMax c t n (seen ++ [d]) td := by
  obtain ⟨l1, l2, heq, hlt, hle⟩ := h
  refine ⟨l1, l2 ++ [d], by rw [heq]; simp, hlt, ?_⟩
  intro e he hm
  rcases List.mem_append.mp he with h1 | h1
  · exact hle e h1 hm
  · simp at h1; subst h1; exact hd hm

lemma firstMax_promote {c t n : String} {seen : List DriverDesc}
    {td d : DriverDesc} (h : FirstMax c t n seen td)
    (hlt : td.driver_version_ < d.driver_version_) :
    FirstMax c t n (seen ++ [d]) d := by
  obtain ⟨l1, l2, heq, hl1, hl2⟩ := h
  refine ⟨seen, [], rfl, ?_, by simp⟩
  intro e he hm
  subst heq
  rcases List.mem_append.mp he with h1 | h1
  · exact lt_trans (hl1 e h1 hm) hlt
  · rcases List.mem_cons.mp h1 with h2 | h2
    · exact h2 ▸ hlt
    · exact lt_of_le_of_lt (hl2 e h2 hm) hlt

lemma firstMax_of_no_match {c t n : String} {seen : List DriverDesc}
    {d : DriverDesc} (hseen : ∀ e ∈ seen, idMatch c t n e = false) :
    FirstMax c t n (seen ++ [d]) d := by
  refine ⟨seen, [], rfl, ?_, by simp⟩
  intro e he hm
  rw [hseen e he] at hm
  cases hm

lemma getDriverLoop_nil (c t n v : String) (temp : Option DriverDesc) :
    getDriverLoop c t n v [] temp = temp := rfl

lemma getDriverLoop_cons (c t n v : String) (d : DriverDesc)
    (rest : List DriverDesc) (temp : Option DriverDesc) :
    getDriverLoop c t n v (d :: rest) temp =
      if ¬ idMatch c t n d then getDriverLoop c t n v rest temp
      else if d.driver_version_ == v then some d
      else
        match temp with
        | none => getDriverLoop c t n v rest (some d)
        | some td =>
          if td.driver_version_ < d.driver_version_ then
            getDriverLoop c t n v rest (some d)
          else getDriverLoop c t n v rest temp := rfl

lemma getDriverLoop_spec (c t n v : String) :
    ∀ (rest seen : List DriverDesc) (temp : Option DriverDesc),
      LoopInv c t n v seen temp →
      GetSpec c t n v (seen ++ rest) (getDriverLoop c t n v rest temp) := by
  intro rest
  induction rest with
  | nil =>
    intro seen temp h
    rw [getDriverLoop_nil, List.append_nil]
    cases temp with
    | none => exact h
    | some td =>
      obtain ⟨hmem, hm, hne, hfm⟩ := h
      exact ⟨hmem, hm, Or.inr ⟨hne, hfm⟩⟩
  | cons d rest ih =>
    intro seen temp h
    rw [getDriverLoop_cons]
    by_cases hm : idMatch c t n d = true
    · rw [if_neg (not_not_intro hm)]
      by_cases hv : (d.driver_version_ == v) = true
      · rw [if_pos hv]
        exact ⟨by simp, hm, Or.inl (by simpa using hv)⟩
      · rw [if_neg hv]
        have hvne : d.driver_version_ ≠ v := by simpa using hv
        cases temp with
        | none =>
          have h2 : LoopInv c t n v (seen ++ [d]) (some d) :=
            ⟨by simp, hm, matchNe_extend (fun e he hmm => absurd hmm (by simp [h e he])) (fun _ => hvne),
              firstMax_of_no_match h⟩
          have h3 := ih (seen ++ [d]) (some d) h2
          simpa using h3
        | some td =>
          obtain ⟨htm, htmm, htn, htf⟩ := h
          show GetSpec c t n v (seen ++ d :: rest)
            (if td.driver_version_ < d.driver_version_ then
              getDriverLoop c t n v rest (some d)
            else getDriverLoop c t n v rest (some td))
          by_cases hlt : td.driver_version_ < d.driver_version_
          · rw [if_pos hlt]
            have h2 : LoopInv c t n v (seen ++ [d]) (some d) :=
              ⟨by simp, hm, matchNe_extend htn (fun _ => hvne), firstMax_promote htf hlt⟩
            have h3 := ih (seen ++ [d]) (some d) h2
            simpa using h3
          · rw [if_neg hlt]
            have h2 : LoopInv c t n v (seen ++ [d]) (some td) :=
              ⟨by simp [htm], htmm, matchNe_extend htn (fun _ => hvne),
                firstMax_extend htf (fun _ => not_lt.mp hlt)⟩
            have h3 := ih (seen ++ [d]) (some td) h2
            simpa using h3
    · rw [if_pos hm]
      have h2 : LoopInv c t n v (seen ++ [d]) temp := by
        cases temp with
        | none =>
          intro e he
          rcases List.mem_append.mp he with h1 | h1
          · exact h e h1
          · simp at h1; subst h1; simpa using hm
        | some td =>
          obtain ⟨htm, htmm, htn, htf⟩ := h
          exact ⟨by simp [htm], htmm, matchNe_extend htn (fun hmm => absurd hmm hm),
            firstMax_extend htf (fun hmm => absurd hmm hm)⟩
      have h3 := ih (seen ++ [d]) temp h2
      simpa using h3


/-- Two registered drivers sharing an identity, with version strings
"2.0.0" and "10.0.0". -/
def dv2 : DriverDesc :=
  { driver_class_ := "a", driver_type_ := "b", driver_name_ := "c",
    driver_version_ := "2.0.0" }

/-- The same identity as `dv2` at version "10.0.0". -/
def dv10 : DriverDesc := { dv2 with driver_version_ := "10.0.0" }

/-- C2: for every registry state and identity query, `GetDriver` returns
a driver matching (class, type, name) with exactly the requested version
when one exists in the list; otherwise the earliest identity match
carrying the lexicographically greatest version string; and none when no
identity match exists (`GetSpec`). In particular, among versions "2.0.0"
and "10.0.0" (requested version matching neither) it selects "2.0.0". -/
theorem getDriver_correct :
    (∀ (l : List DriverDesc) (c t n v : String),
      GetSpec c t n v l (GetDriver l c t n v)) ∧
    GetDriver [dv2, dv10] "a" "b" "c" "" = some dv2 ∧
    dv2.driver_version_ = "2.0.0" ∧ dv10.driver_version_ = "10.0.0" := by
  refine ⟨?_, ?_, rfl, rfl⟩
  · intro l c t n v
    have h := getDriverLoop_spec c t n v l [] none
      (fun e he => absurd he (List.not_mem_nil e))
    simpa [GetDriver] using h
  · have hne : ¬ (dv2.driver_version_ < dv10.driver_version_) := by
      show ¬ (("2.0.0" : String) < "10.0.0")
      rw [String.lt_iff_toList_lt]
      decide
    have e1 : idMatch "a" "b" "c" dv2 = true := by decide
    have e2 : ¬ ((dv2.driver_version_ == "") = true) := by decide
    have e3 : idMatch "a" "b" "c" dv10 = true := by decide
    have e4 : ¬ ((dv10.driver_version_ == "") = true) := by decide
    rw [GetDriver, getDriverLoop_cons, if_neg (not_not_intro e1), if_neg e2]
    show getDriverLoop "a" "b" "c" "" [dv10] (some dv2) = some dv2
    rw [getDriverLoop_cons, if_neg (not_not_intro e3), if_neg e4]
    show (if dv2.driver_version_ < dv10.driver_version_ then
        getDriverLoop "a" "b" "c" "" [] (some dv10)
      else getDriverLoop "a" "b" "c" "" [] (some dv2)) = some dv2
    rw [if_neg hne, getDriverLoop_nil]


lemma beq_swap (x y : String) : (x == y) = (y == x) := by
  by_cases h : x = y
  · subst h; rfl
  · rw [beq_eq_false_iff_ne.mpr h, beq_eq_false_iff_ne.mpr (Ne.symm h)]

lemma idMatch_comm (a b : DriverDesc) :
    idMatch a.driver_class_ a.driver_type_ a.driver_name_ b =
      idMatch b.driver_class_ b.driver_type_ b.driver_name_ a := by
  rw [idMatch, idMatch, beq_swap, beq_swap a.driver_type_,
    beq_swap a.driver_name_]

lemma getDriver_eq_none_of_no_match {l : List DriverDesc} {c t n v : String}
    (h : ∀ e ∈ l, idMatch c t n e = false) : GetDriver l c t n v = none := by
  have hs := getDriverLoop_spec c t n v l [] none
    (fun e he => absurd he (List.not_mem_nil e))
  rw [GetDriver]
  rcases hres : getDriverLoop c t n v l none with _ | e
  · rfl
  · rw [List.nil_append, hres] at hs
    obtain ⟨hmem, hm, _⟩ := hs
    rw [h e hmem] at hm
    cases hm

lemma gatherLoop_append (xs ys : List ScanEntry) (acc : List DriverDesc) :
    gatherLoop (xs ++ ys) acc = gatherLoop ys (gatherLoop xs acc) := by
  induction xs generalizing acc with
  | nil => rfl
  | cons x xs ih =>
    cases x with
    | failed fp em => simpa [gatherLoop] using ih acc
    | succeeded d =>
      rw [List.cons_append, gatherLoop, gatherLoop]
      cases GetDriver acc d.driver_class_ d.driver_type_ d.driver_name_
          d.driver_version_ with
      | none => exact ih (acc ++ [gatherDesc d])
      | some e => exact ih acc

lemma gatherLoop_failed (fails : List (String × String))
    (acc : List DriverDesc) :
    gatherLoop (fails.map fun f => ScanEntry.failed f.1 f.2) acc = acc := by
  induction fails with
  | nil => rfl
  | cons f fails ih => simpa [gatherLoop] using ih

lemma gatherDesc_eq {d : DriverDesc}
    (h : d.driver_version_ = "" ∨ CheckVersion d.driver_version_ = Status.ok) :
    gatherDesc d = d := by
  by_cases hv : d.driver_version_ = ""
  · cases d
    simp_all [gatherDesc, SetVersion]
  · rcases h with h | h
    · exact absurd h hv
    · cases d
      simp_all [gatherDesc, SetVersion]

lemma gatherLoop_succeeded (l : List DriverDesc) :
    ∀ acc : List DriverDesc,
      (∀ d ∈ l, ∀ e ∈ acc,
        idMatch d.driver_class_ d.driver_type_ d.driver_name_ e = false) →
      distinctIdentities l = true → versionsOk l = true →
      gatherLoop (l.map ScanEntry.succeeded) acc = acc ++ l := by
  induction l with
  | nil => intro acc _ _ _; simp [gatherLoop]
  | cons d l ih =>
    intro acc hfresh hdist hver
    rw [List.map_cons, gatherLoop,
      getDriver_eq_none_of_no_match (hfresh d (by simp))]
    rw [distinctIdentities, Bool.and_eq_true] at hdist
    rw [versionsOk, List.all_cons, Bool.and_eq_true] at hver
    have hd : gatherDesc d = d := by
      apply gatherDesc_eq
      rcases Bool.or_eq_true_iff.mp hver.1 with h | h
      · exact Or.inl (by simpa using h)
      · exact Or.inr (by simpa using h)
    rw [hd]
    have hstep := ih (acc ++ [d]) ?_ hdist.2 (by simpa [versionsOk] using hver.2)
    · rw [hstep, List.append_assoc, List.singleton_append]
    · intro d2 hd2 e he
      rcases List.mem_append.mp he with h1 | h1
      · exact hfresh d2 (by simp [hd2]) e h1
      · simp at h1
        subst h1
        rw [idMatch_comm]
        have := List.all_eq_true.mp hdist.1 d2 hd2
        simpa using this

/-- C4 (amended): writing the scan cache and re-reading it into an empty
registry reconstructs `drivers_list_` exactly, provided no two drivers
share a (class, type, name) triple — `GatherScanInfo` deduplicates
through `GetDriver`, which ignores the version and description — and
every version field is empty or valid, so that `SetVersion` reproduces
it; failed scan entries are written and skipped. -/
theorem scan_info_roundtrip (l : List DriverDesc)
    (fails : List (String × String))
    (hdist : distinctIdentities l = true) (hver : versionsOk l = true) :
    GatherScanInfo (WriteScanInfo l fails) = l ∧
    (GatherScanInfo (WriteScanInfo l fails)).map descTuple =
      l.map descTuple := by
  have h : GatherScanInfo (WriteScanInfo l fails) = l := by
    rw [GatherScanInfo, WriteScanInfo, gatherLoop_append,
      gatherLoop_succeeded l [] (fun d _ e he => absurd he (List.not_mem_nil e))
        hdist hver,
      gatherLoop_failed]
    simp
  exact ⟨h, by rw [h]⟩

/-- A second descriptor whose identity differs from `dv2` in the name. -/
def dNameZ : DriverDesc := { dv2 with driver_name_ := "z" }

/-- C4 witness: a two-driver registry with distinct identities and a
failed entry round-trips unchanged. -/
theorem scan_info_roundtrip_witness :
    distinctIdentities [dv2, dNameZ] = true ∧
    versionsOk [dv2, dNameZ] = true ∧
    GatherScanInfo (WriteScanInfo [dv2, dNameZ] [("f", "err")]) =
      [dv2, dNameZ] := by
  exact ⟨by decide, by decide,
    (scan_info_roundtrip [dv2, dNameZ] [("f", "err")] (by decide)
      (by decide)).1⟩

/-- C4 counterexample: two drivers share (class, type, name) and differ
only in version — a state `Drivers::Add` permits, since it deduplicates
on the full five-field tuple — but the round trip keeps only the first:
the (class, type, name, version, description) tuple of `dv10` is in the
written list and absent after re-reading. -/
theorem roundtrip_drops_version :
    GatherScanInfo (WriteScanInfo [dv2, dv10] []) = [dv2] ∧
    descTuple dv10 ∈ [dv2, dv10].map descTuple ∧
    descTuple dv10 ∉
      (GatherScanInfo (WriteScanInfo [dv2, dv10] [])).map descTuple := by
  exact ⟨by decide, by decide, by decide⟩


lemma scanDirFiles_some (cached : List String) (files : List FileEnt) :
    ∀ s : Int,
      (∀ f ∈ files, f.lstat_ok = true → f.is_link = false →
        f.path ∈ cached) →
      scanDirFiles cached files s = some (s + sumFiles files) := by
  induction files with
  | nil => intro s _; simp [scanDirFiles, sumFiles]
  | cons f fs ih =>
    intro s h
    rw [scanDirFiles]
    by_cases h1 : f.lstat_ok = true
    · rw [if_neg (not_not_intro h1)]
      by_cases h2 : f.is_link = true
      · rw [if_pos h2, ih s (fun g hg => h g (by simp [hg]))]
        simp [sumFiles, h1, h2]
      · rw [if_neg h2]
        have h2' : f.is_link = false := by simpa using h2
        rw [if_neg (not_not_intro (h f (by simp) h1 h2')),
          ih (s + f.mtime) (fun g hg => h g (by simp [hg]))]
        simp [sumFiles, h1, h2']
        ring_nf
    · have h1' : f.lstat_ok = false := by simpa using h1
      rw [if_pos (by simp [h1']), ih s (fun g hg => h g (by simp [hg]))]
      simp [sumFiles, h1']

lemma scanDirFiles_none (cached : List String) (files : List FileEnt) :
    ∀ s : Int,
      ¬ (∀ f ∈ files, f.lstat_ok = true → f.is_link = false →
        f.path ∈ cached) →
      scanDirFiles cached files s = none := by
  induction files with
  | nil => intro s h; exact absurd (by simp) h
  | cons f fs ih =>
    intro s h
    rw [scanDirFiles]
    by_cases h1 : f.lstat_ok = true
    · rw [if_neg (not_not_intro h1)]
      by_cases h2 : f.is_link = true
      · rw [if_pos h2]
        apply ih
        intro hall
        exact h (by
          intro g hg
          rcases List.mem_cons.mp hg with hh | hh
          · subst hh; intro _ hlink; rw [h2] at hlink; cases hlink
          · exact hall g hh)
      · rw [if_neg h2]
        have h2' : f.is_link = false := by simpa using h2
        by_cases h3 : f.path ∈ cached
        · rw [if_neg (not_not_intro h3)]
          apply ih
          intro hall
          exact h (by
            intro g hg
            rcases List.mem_cons.mp hg with hh | hh
            · subst hh; intro _ _; exact h3
            · exact hall g hh)
        · rw [if_pos h3]
    · have h1' : f.lstat_ok = false := by simpa using h1
      rw [if_pos (by simp [h1'])]
      apply ih
      intro hall
      exact h (by
        intro g hg
        rcases List.mem_cons.mp hg with hh | hh
        · subst hh; intro hok; rw [h1'] at hok; cases hok
        · exact hall g hh)

lemma scannedFiles_dir_cons (ok : Bool) (files : List FileEnt)
    (rest : List DirEnt) :
    scannedFiles (DirEnt.dir ok files :: rest) =
      ((files.filter fun f => f.lstat_ok && !f.is_link).map fun f => f.path)
        ++ scannedFiles rest := by
  simp [scannedFiles]

lemma mem_scannedFiles_dir (files : List FileEnt) (rest : List DirEnt)
    (ok : Bool) (p : String) :
    p ∈ scannedFiles (DirEnt.dir ok files :: rest) ↔
      ((∃ f ∈ files, f.lstat_ok = true ∧ f.is_link = false ∧ f.path = p) ∨
        p ∈ scannedFiles rest) := by
  rw [scannedFiles_dir_cons, List.mem_append]
  constructor
  · intro hp
    rcases hp with h | h
    · left
      simp only [List.mem_map, List.mem_filter] at h
      obtain ⟨f, ⟨hf, hcond⟩, hfp⟩ := h
      rw [Bool.and_eq_true, Bool.not_eq_true'] at hcond
      exact ⟨f, hf, hcond.1, hcond.2, hfp⟩
    · exact Or.inr h
  · intro hp
    rcases hp with ⟨f, hf, h1, h2, h3⟩ | h
    · left
      simp only [List.mem_map, List.mem_filter]
      refine ⟨f, ⟨hf, ?_⟩, h3⟩
      rw [Bool.and_eq_true, Bool.not_eq_true']
      exact ⟨h1, h2⟩
    · exact Or.inr h

lemma scanDirs_spec (cached : List String) (dirs : List DirEnt) :
    ∀ s : Int, dirsOk dirs = true →
      scanDirs cached dirs s =
        (if ∀ p ∈ scannedFiles dirs, p ∈ cached then
          some (s + checkSum dirs)
        else none) := by
  induction dirs with
  | nil => intro s _; simp [scanDirs, scannedFiles, checkSum]
  | cons d rest ih =>
    intro s hok
    cases d with
    | lstatFail => exact absurd hok (by simp [dirsOk])
    | file m =>
      rw [dirsOk] at hok
      rw [scanDirs, ih (s + m) hok]
      have hmem : scannedFiles (DirEnt.file m :: rest) = scannedFiles rest := by
        simp [scannedFiles]
      rw [hmem, checkSum]
      by_cases hsub : ∀ p ∈ scannedFiles rest, p ∈ cached
      · rw [if_pos hsub, if_pos hsub]
        congr 1
        ring
      · rw [if_neg hsub, if_neg hsub]
    | dir ok files =>
      rw [dirsOk, Bool.and_eq_true] at hok
      by_cases hfiles : ∀ f ∈ files, f.lstat_ok = true → f.is_link = false →
          f.path ∈ cached
      · have h1 : scanDirs cached (DirEnt.dir ok files :: rest) s =
            scanDirs cached rest (s + sumFiles files) := by
          rw [scanDirs, if_neg (not_not_intro hok.1),
            scanDirFiles_some cached files s hfiles]
        rw [h1, ih _ hok.2, checkSum]
        by_cases hsub : ∀ p ∈ scannedFiles rest, p ∈ cached
        · rw [if_pos hsub, if_pos ?_]
          · congr 1
            ring
          · intro p hp
            rcases (mem_scannedFiles_dir files rest ok p).mp hp with h | h
            · obtain ⟨f, hf, hfok, hflink, hfp⟩ := h
              exact hfp ▸ hfiles f hf hfok hflink
            · exact hsub p h
        · rw [if_neg hsub, if_neg ?_]
          intro hall
          exact hsub (fun p hp =>
            hall p ((mem_scannedFiles_dir files rest ok p).mpr (Or.inr hp)))
      · have h1 : scanDirs cached (DirEnt.dir ok files :: rest) s = none := by
          rw [scanDirs, if_neg (not_not_intro hok.1),
            scanDirFiles_none cached files s hfiles]
        rw [h1, if_neg ?_]
        intro hall
        apply hfiles
        intro f hf hfok hflink
        exact hall f.path
          ((mem_scannedFiles_dir files rest ok f.path).mpr
            (Or.inl ⟨f, hf, hfok, hflink, rfl⟩))


/-- C6 (amended): when every configured directory can be walked (`lstat`
and listing succeed), `CheckPathAndMagicCode` declares the scan cache
valid iff the cache file exists, the linker-cache file exists and its
mtime equals the cached `ld_cache_time`, every regular file the scan
finds is present in the cached file set, and the check code freshly
derived from the summed mtimes equals the cached check code. A cached
path that no longer exists on disk is not checked directly: its absence
is noticed only through the check code. -/
theorem checkPathAndMagicCode_amended (generateKey : Int → String)
    (env : CheckEnv) (hok : dirsOk env.dirs = true) :
    CheckPathAndMagicCode generateKey env = true ↔
      (env.scan_info_exists = true ∧ env.ld_cache_exists = true ∧
        env.cache.ld_cache_time = env.ld_cache_mtime ∧
        (∀ p ∈ scannedFiles env.dirs, p ∈ env.cache.cached_files) ∧
        generateKey (checkSum env.dirs) = env.cache.check_code) := by
  unfold CheckPathAndMagicCode
  by_cases h1 : env.scan_info_exists = true
  · rw [if_neg (not_not_intro h1)]
    by_cases h2 : env.ld_cache_exists = true
    · rw [if_neg (not_not_intro h2)]
      by_cases h3 : env.cache.ld_cache_time = env.ld_cache_mtime
      · rw [if_neg (not_not_intro h3)]
        rw [scanDirs_spec env.cache.cached_files env.dirs 0 hok]
        by_cases h4 : ∀ p ∈ scannedFiles env.dirs, p ∈ env.cache.cached_files
        · rw [if_pos h4]
          show (generateKey (0 + checkSum env.dirs) ==
            env.cache.check_code) = true ↔ _
          rw [zero_add, beq_iff_eq]
          constructor
          · intro h; exact ⟨h1, h2, h3, h4, h⟩
          · intro hr; exact hr.2.2.2.2
        · rw [if_neg h4]
          show (false = true) ↔ _
          constructor
          · intro h; exact absurd h (by simp)
          · intro hr; exact absurd hr.2.2.2.1 h4
      · rw [if_pos h3]
        constructor
        · intro h; exact absurd h (by simp)
        · intro hr; exact absurd hr.2.2.1 h3
    · rw [if_pos h2]
      constructor
      · intro h; exact absurd h (by simp)
      · intro hr; exact absurd hr.2.1 h2
  · rw [if_pos h1]
    constructor
    · intro h; exact absurd h (by simp)
    · intro hr; exact absurd hr.1 h1

/-- A cache and filesystem agreeing on the one scanned file "a". -/
def envW : CheckEnv :=
  { scan_info_exists := true, ld_cache_exists := true, ld_cache_mtime := 7,
    cache := { check_code := "5", ld_cache_time := 7, cached_files := ["a"] },
    dirs := [DirEnt.dir true
      [{ path := "a", lstat_ok := true, is_link := false, mtime := 5 }]] }

/-- C6 witness: the amended validity predicate evaluated at a concrete
consistent cache, through `checkPathAndMagicCode_amended`. -/
theorem checkPathAndMagicCode_amended_witness :
    dirsOk envW.dirs = true ∧
    CheckPathAndMagicCode (fun n => toString n) envW = true := by
  refine ⟨by decide, ?_⟩
  exact (checkPathAndMagicCode_amended (fun n => toString n) envW
    (by decide)).mpr ⟨rfl, rfl, rfl, by decide, by decide⟩

/-- The same filesystem with the cache also recording a second file "b"
that no longer exists; "b" contributed mtime 0 to the recorded sum, so
the freshly derived check code still matches. -/
def envC : CheckEnv :=
  { envW with cache :=
      { check_code := "5", ld_cache_time := 7, cached_files := ["a", "b"] } }

/-- C6 counterexample: the cached file "b" no longer exists in the scan —
the cached and scanned file sets do not coincide — yet
`CheckPathAndMagicCode` declares the cache valid, because only new files
are checked against the cached set and the mtime sum is unchanged. -/
theorem checkPath_misses_deleted_file :
    CheckPathAndMagicCode (fun n => toString n) envC = true ∧
    "b" ∈ envC.cache.cached_files ∧
    "b" ∉ scannedFiles envC.dirs := by
  exact ⟨by decide, by decide, by decide⟩

end Modelbox
